import Mathlib

/-!
Shallow embedding of the `aligned_nearest_neighbor` crate
(`src/lib.rs`, `src/nearest_neighbor.rs`).

Modelling conventions:
* A FASTA `Record` is an identifier together with its byte sequence;
  bytes are modelled as `Nat` (the gap symbol is byte 45).
* The Rust metric `pct_identity` returns an `f32` obtained by an
  unguarded division `numer / denom` of two exactly-representable
  nonnegative integer counts with `numer ≤ denom`.  We model the value
  as `Option ℚ`: `some (numer / denom)` for a positive denominator and
  `none` for the IEEE-754 `NaN` produced by the `0.0 / 0.0` case (the
  only non-finite case, since `numer ≤ denom`).  The comparison
  `idty >= best_idty` of the Rust code is false whenever `idty` is
  `NaN`, which the search loop below reproduces for the `none` value.
* Process aborts (`panic!` / `.unwrap()` / `assert_eq!`) are modelled
  by the `.error` constructor of `Except PanicKind`.
* The rayon `par_iter().map(...).collect()` pipeline is an
  index-stable parallel map; it is embedded as the order-preserving
  sequential map over the query list.
* File I/O is out of scope: `parse_all_records` is embedded as the
  validation it performs on the already-decoded record list, and the
  TSV emitter as the list of lines it writes.
-/

instance {ε α : Type _} [DecidableEq ε] [DecidableEq α] :
    DecidableEq (Except ε α) := fun x y =>
  match x, y with
  | .error a, .error b =>
    if h : a = b then .isTrue (by rw [h])
    else .isFalse (fun hh => h (Except.error.inj hh))
  | .ok a, .ok b =>
    if h : a = b then .isTrue (by rw [h])
    else .isFalse (fun hh => h (Except.ok.inj hh))
  | .error _, .ok _ => .isFalse (fun hh => Except.noConfusion hh)
  | .ok _, .error _ => .isFalse (fun hh => Except.noConfusion hh)

/-- A FASTA record: identifier plus aligned byte sequence
(`bio::io::fasta::Record`, viewed through `.id()` and `.seq()`). -/
structure Record where
  id : String
  seq : List Nat
deriving DecidableEq

/-- `const GAP: u8 = '-' as u8;` (`src/nearest_neighbor.rs`, line 140);
the ASCII code of the dash is 45. -/
def GAP : Nat := 45

/-- `enum NearestNeighborError` (`src/nearest_neighbor.rs`, lines 19-23). -/
inductive NearestNeighborError where
  | IOError (msg : String)
  | HammingDistanceError (id1 id2 : String)
deriving DecidableEq

/-- The process aborts the Rust code can take inside the search and the
emitter: the `panic!` after a failed per-pair comparison (line 128), the
`.unwrap()` on an empty best neighbor (line 136), and the `assert_eq!`
on the result/query lengths (line 72). -/
inductive PanicKind where
  | cmpFailed
  | emptyNeighbor
  | resultLenMismatch
deriving DecidableEq

/-- `fn pct_identity(x: &Record, y: &Record) -> Result<f32, NearestNeighborError>`
(`src/nearest_neighbor.rs`, lines 142-160).  The two iterator chains of the
source compute `numer` (pairs that are not double-gap and are equal) and
`denom` (pairs that are not double-gap); the unguarded `f32` division is
modelled exactly: `none` is the `NaN` of the `0/0` case, otherwise the
exact rational `numer / denom`. -/
def pct_identity (x y : Record) : Except NearestNeighborError (Option ℚ) :=
  if x.seq.length ≠ y.seq.length then
    .error (NearestNeighborError.HammingDistanceError x.id y.id)
  else
    let numer : Nat :=
      (((x.seq.zip y.seq).filter
          (fun p => !(p.1 == GAP && p.2 == GAP))).filter
          (fun p => p.1 == p.2)).length
    let denom : Nat :=
      ((x.seq.zip y.seq).filter
          (fun p => !(p.1 == GAP && p.2 == GAP))).length
    if denom = 0 then .ok none
    else .ok (some (mkRat numer denom))

/-- The denominator count of `pct_identity`: pairs of aligned symbols that
are not gap-in-both. -/
def denomCount (x y : Record) : Nat :=
  ((x.seq.zip y.seq).filter (fun p => !(p.1 == GAP && p.2 == GAP))).length

/-- The numerator count of `pct_identity`: non-double-gap pairs whose two
symbols are equal. -/
def numerCount (x y : Record) : Nat :=
  (((x.seq.zip y.seq).filter
      (fun p => !(p.1 == GAP && p.2 == GAP))).filter
      (fun p => p.1 == p.2)).length

/-- The exact rational value of the `f32` score `numer / denom`
(`mkRat n d` is `n / d` for a nonzero denominator, see `scoreQ_eq_div`). -/
def scoreQ (x y : Record) : ℚ :=
  mkRat (numerCount x y) (denomCount x y)

/-- `fn filter_records(records: &[Record], id_arr: Option<Vec<String>>) -> Vec<&Record>`
(`src/nearest_neighbor.rs`, lines 44-54).  `HashSet::from_iter` followed by
`contains` is membership in the identifier list. -/
def filter_records (records : List Record) (id_arr : Option (List String)) :
    List Record :=
  match id_arr with
  | none => records
  | some id_list => records.filter (fun record => id_list.contains record.id)

/-- The `for other in collection.iter()` loop of
`compute_nearest_neighbors_single` (`src/nearest_neighbor.rs`, lines
121-133), with its running state `best_idty` (starting at `0.0`) and
`best_neighbor` (starting at `None`).  A comparison error aborts
(`panic!`, modelled by `.error .cmpFailed`); a `NaN` score (`.ok none`)
fails the `idty >= best_idty` test and leaves the state unchanged; a
finite score replaces the state exactly when it is `≥ best_idty`. -/
def nnLoop (query : Record) :
    List Record → ℚ → Option Record → Except PanicKind (Option Record × ℚ)
  | [], best_idty, best_neighbor => .ok (best_neighbor, best_idty)
  | other :: rest, best_idty, best_neighbor =>
    match pct_identity query other with
    | .error _ => .error PanicKind.cmpFailed
    | .ok none => nnLoop query rest best_idty best_neighbor
    | .ok (some idty) =>
      if best_idty ≤ idty then nnLoop query rest idty (some other)
      else nnLoop query rest best_idty best_neighbor

/-- `fn compute_nearest_neighbors_single(query, collection) -> (&Record, f32)`
(`src/nearest_neighbor.rs`, lines 120-137): run the scan loop and then
`best_neighbor.unwrap()` (modelled by `.error .emptyNeighbor` when no
candidate was ever selected). -/
def compute_nearest_neighbors_single (query : Record) (collection : List Record) :
    Except PanicKind (Record × ℚ) :=
  match nnLoop query collection 0 none with
  | .error p => .error p
  | .ok (none, _) => .error PanicKind.emptyNeighbor
  | .ok (some r, best_idty) => .ok (r, best_idty)

/-- `fn compute_nearest_neighbors(query_records, db_records)`
(`src/nearest_neighbor.rs`, lines 81-106): the index-stable parallel map
of `compute_nearest_neighbors_single` over the query records, embedded as
the order-preserving sequential map (a panic in any worker aborts the
whole computation). -/
def compute_nearest_neighbors (query_records db_records : List Record) :
    Except PanicKind (List (Record × ℚ)) :=
  match query_records with
  | [] => .ok []
  | query :: rest =>
    match compute_nearest_neighbors_single query db_records with
    | .error p => .error p
    | .ok r =>
      match compute_nearest_neighbors rest db_records with
      | .error p => .error p
      | .ok rs => .ok (r :: rs)

/-- `fn compute_store_nearest_neighbors(records, out_path, query_ids, db_ids)`
(`src/nearest_neighbor.rs`, lines 58-77): filter the two views, compute all
neighbors, `assert_eq!(results.len(), query_records.len())`, then write one
`query_id<TAB>neighbor_id<TAB>score` line per query.  The output file is
modelled as the list of written lines. -/
def compute_store_nearest_neighbors (records : List Record)
    (query_ids db_ids : Option (List String)) : Except PanicKind (List String) :=
  let query_records := filter_records records query_ids
  let db_records := filter_records records db_ids
  match compute_nearest_neighbors query_records db_records with
  | .error p => .error p
  | .ok results =>
    if results.length ≠ query_records.length then
      .error PanicKind.resultLenMismatch
    else
      .ok ((query_records.zip results).map
        (fun qr => qr.1.id ++ "\t" ++ qr.2.1.id ++ "\t" ++ toString qr.2.2))

/-- `enum FastaParseErrorKind` (`src/lib.rs`, lines 14-19). -/
inductive FastaParseErrorKind where
  | IOError
  | EmptyFile
  | LengthMismatch
deriving DecidableEq

/-- `struct FastaParseError` (`src/lib.rs`, lines 22-26). -/
structure FastaParseError where
  message : String
  kind : FastaParseErrorKind
deriving DecidableEq

/-- The message built by `parse_all_records` for a length mismatch
(`src/lib.rs`, lines 73-78). -/
def mismatchMsg (first_len got_len record_idx : Nat) : String :=
  "Record lengths don\x27t match! FirstLen=" ++ toString first_len ++
    ", got Len=" ++ toString got_len ++ " for record index " ++
    toString record_idx

/-- The `for (record_idx, record) in all_fasta_records.iter().enumerate()`
validation loop of `parse_all_records` (`src/lib.rs`, lines 70-82):
returns the error for the first record whose length differs from
`first_len`, or `none` if all lengths match. -/
def checkLengths (first_len : Nat) : Nat → List Record → Option FastaParseError
  | _, [] => none
  | record_idx, record :: rest =>
    if record.seq.length ≠ first_len then
      some ⟨mismatchMsg first_len record.seq.length record_idx,
            FastaParseErrorKind.LengthMismatch⟩
    else checkLengths first_len (record_idx + 1) rest

/-- `fn parse_all_records(input_fasta) -> Result<Vec<Record>, FastaParseError>`
(`src/lib.rs`, lines 53-85), embedded as the validation it performs on the
already-decoded record list: empty input is an `EmptyFile` error, a record
whose length differs from the first record is a `LengthMismatch` error,
otherwise all records are returned. -/
def parse_all_records (all_fasta_records : List Record) :
    Except FastaParseError (List Record) :=
  match all_fasta_records with
  | [] => .error ⟨"No records found.", FastaParseErrorKind.EmptyFile⟩
  | first :: _ =>
    match checkLengths first.seq.length 0 all_fasta_records with
    | some e => .error e
    | none => .ok all_fasta_records

/-- The length of the first record of a collection (`first_len` in
`parse_all_records`); 0 for an empty collection. -/
def firstLen : List Record → Nat
  | [] => 0
  | first :: _ => first.seq.length

/-! ### Concrete records used as test inputs

These mirror the fixtures of the repository's own tests: `test_pct_identity`
in `src/nearest_neighbor.rs` and `test_query_db_match` in `src/lib.rs`
(byte 65 is `A`, 66 is `B`, 67 is `C`, 45 is the gap symbol `-`). -/

def gapX : Record := ⟨"x", [45, 45, 45, 45, 65, 65, 65, 65, 45, 45, 45, 45]⟩

def gapY : Record := ⟨"y", [45, 45, 45, 45, 65, 65, 65, 45, 45, 45, 45, 45]⟩

def recA7 : Record := ⟨"input1", [65, 65, 65, 65, 65, 65, 65]⟩

def recC7 : Record := ⟨"input2", [65, 65, 65, 65, 67, 67, 65]⟩

def recLen4 : Record := ⟨"input1", [65, 65, 65, 65]⟩

def recLen3 : Record := ⟨"input2", [65, 65, 65]⟩

def query13 : Record := ⟨"query_1", List.replicate 13 65⟩

def db13 : Record := ⟨"db_1", List.replicate 13 65⟩

def allGapQ : Record := ⟨"q0", [45, 45]⟩

def allGapC1 : Record := ⟨"c1", [45, 45]⟩

def allGapC2 : Record := ⟨"c2", [45, 45]⟩

def tieQ : Record := ⟨"q", [65, 65]⟩

def tieC1 : Record := ⟨"c1", [65, 65]⟩

def demoA : Record := ⟨"a", [65]⟩

def demoB : Record := ⟨"b", [66]⟩

/-! ### Basic facts about the similarity score -/

theorem scoreQ_eq_div (x y : Record) :
    scoreQ x y = (numerCount x y : ℚ) / (denomCount x y : ℚ) := by
  rw [scoreQ, Rat.mkRat_eq_div]
  push_cast
  rfl

theorem numerCount_le_denomCount (x y : Record) :
    numerCount x y ≤ denomCount x y :=
  List.length_filter_le _ _

theorem scoreQ_nonneg (x y : Record) : 0 ≤ scoreQ x y := by
  rw [scoreQ_eq_div]
  positivity

theorem scoreQ_le_one (x y : Record) : scoreQ x y ≤ 1 := by
  rw [scoreQ_eq_div]
  rcases Nat.eq_zero_or_pos (denomCount x y) with h | h
  · simp [h]
  · rw [div_le_one (by exact_mod_cast h)]
    exact_mod_cast numerCount_le_denomCount x y

theorem pct_identity_eq {x y : Record} (h : x.seq.length = y.seq.length) :
    pct_identity x y =
      .ok (if denomCount x y = 0 then none else some (scoreQ x y)) := by
  simp only [pct_identity, h, ne_eq, not_true_eq_false, if_false,
    numerCount, denomCount, scoreQ]
  exact (apply_ite Except.ok _ _ _).symm

theorem pct_identity_ne {x y : Record} (h : x.seq.length ≠ y.seq.length) :
    pct_identity x y =
      .error (NearestNeighborError.HammingDistanceError x.id y.id) := by
  simp [pct_identity, h]

/-! ### Characterization of the scan loop of
`compute_nearest_neighbors_single` -/

/-- Full characterization of `nnLoop` when every candidate has the
query's length.  Either no candidate ever passed the `idty >= best_idty`
test (all scores are `NaN` or strictly below the running best) and the
state is returned unchanged, or the loop returns the last candidate `r`
attaining the running maximum: `cands = l1 ++ r :: l2` where every
defined score in `l2` is strictly below `r`'s and every defined score in
`cands` is at most `r`'s. -/
theorem nnLoop_char (q : Record) (cands : List Record) :
    ∀ (best : ℚ) (bn : Option Record),
      (∀ c ∈ cands, c.seq.length = q.seq.length) →
      (nnLoop q cands best bn = .ok (bn, best) ∧
        ∀ c ∈ cands, denomCount q c ≠ 0 → scoreQ q c < best) ∨
      (∃ l1 r l2, cands = l1 ++ r :: l2 ∧ denomCount q r ≠ 0 ∧
        nnLoop q cands best bn = .ok (some r, scoreQ q r) ∧
        best ≤ scoreQ q r ∧
        (∀ c ∈ l2, denomCount q c ≠ 0 → scoreQ q c < scoreQ q r) ∧
        (∀ c ∈ cands, denomCount q c ≠ 0 → scoreQ q c ≤ scoreQ q r)) := by
  induction cands with
  | nil =>
    intro best bn _
    exact Or.inl ⟨rfl, by simp⟩
  | cons other rest ih =>
    intro best bn hlen
    have hother : other.seq.length = q.seq.length := hlen other (by simp)
    have hrest : ∀ c ∈ rest, c.seq.length = q.seq.length :=
      fun c hc => hlen c (List.mem_cons_of_mem _ hc)
    have hpct : pct_identity q other =
        .ok (if denomCount q other = 0 then none else some (scoreQ q other)) :=
      pct_identity_eq hother.symm
    by_cases hd : denomCount q other = 0
    · have hstep : nnLoop q (other :: rest) best bn = nnLoop q rest best bn := by
        rw [nnLoop, hpct, if_pos hd]
      rcases ih best bn hrest with ⟨hrun, hlt⟩ |
        ⟨l1, r, l2, hsplit, hdr, hrun, hle, hl2, hall⟩
      · refine Or.inl ⟨hstep.trans hrun, ?_⟩
        intro c hc hdc
        rcases List.mem_cons.1 hc with rfl | hc
        · exact absurd hd hdc
        · exact hlt c hc hdc
      · refine Or.inr ⟨other :: l1, r, l2, by rw [hsplit]; rfl, hdr,
          hstep.trans hrun, hle, hl2, ?_⟩
        intro c hc hdc
        rcases List.mem_cons.1 hc with rfl | hc
        · exact absurd hd hdc
        · exact hall c hc hdc
    · by_cases hcmp : best ≤ scoreQ q other
      · have hstep : nnLoop q (other :: rest) best bn =
            nnLoop q rest (scoreQ q other) (some other) := by
          rw [nnLoop, hpct, if_neg hd]
          exact if_pos hcmp
        rcases ih (scoreQ q other) (some other) hrest with ⟨hrun, hlt⟩ |
          ⟨l1, r, l2, hsplit, hdr, hrun, hle, hl2, hall⟩
        · refine Or.inr ⟨[], other, rest, rfl, hd, hstep.trans hrun, hcmp, hlt, ?_⟩
          intro c hc hdc
          rcases List.mem_cons.1 hc with rfl | hc
          · exact le_refl _
          · exact le_of_lt (hlt c hc hdc)
        · refine Or.inr ⟨other :: l1, r, l2, by rw [hsplit]; rfl, hdr,
            hstep.trans hrun, le_trans hcmp hle, hl2, ?_⟩
          intro c hc hdc
          rcases List.mem_cons.1 hc with rfl | hc
          · exact hle
          · exact hall c hc hdc
      · have hs : scoreQ q other < best := lt_of_not_le hcmp
        have hstep : nnLoop q (other :: rest) best bn = nnLoop q rest best bn := by
          rw [nnLoop, hpct, if_neg hd]
          exact if_neg hcmp
        rcases ih best bn hrest with ⟨hrun, hlt⟩ |
          ⟨l1, r, l2, hsplit, hdr, hrun, hle, hl2, hall⟩
        · refine Or.inl ⟨hstep.trans hrun, ?_⟩
          intro c hc hdc
          rcases List.mem_cons.1 hc with rfl | hc
          · exact hs
          · exact hlt c hc hdc
        · refine Or.inr ⟨other :: l1, r, l2, by rw [hsplit]; rfl, hdr,
            hstep.trans hrun, hle, hl2, ?_⟩
          intro c hc hdc
          rcases List.mem_cons.1 hc with rfl | hc
          · exact le_trans (le_of_lt hs) hle
          · exact hall c hc hdc

/-- A length mismatch anywhere in the candidate list aborts the scan
loop with the comparison panic: elements before the mismatch never stop
the loop, and the mismatching element makes `pct_identity` fail. -/
theorem nnLoop_mismatch (q : Record) (cands : List Record) :
    ∀ (best : ℚ) (bn : Option Record),
      (∃ c ∈ cands, c.seq.length ≠ q.seq.length) →
      nnLoop q cands best bn = .error PanicKind.cmpFailed := by
  induction cands with
  | nil =>
    intro best bn h
    simp at h
  | cons other rest ih =>
    intro best bn h
    by_cases hother : other.seq.length = q.seq.length
    · have hpct := pct_identity_eq hother.symm
      have hrest : ∃ c ∈ rest, c.seq.length ≠ q.seq.length := by
        rcases h with ⟨c, hc, hne⟩
        rcases List.mem_cons.1 hc with rfl | hc
        · exact absurd hother hne
        · exact ⟨c, hc, hne⟩
      rw [nnLoop, hpct]
      by_cases hd : denomCount q other = 0
      · rw [if_pos hd]
        exact ih _ _ hrest
      · rw [if_neg hd]
        by_cases hcmp : best ≤ scoreQ q other
        · show (if best ≤ scoreQ q other then _ else _) = _
          rw [if_pos hcmp]
          exact ih _ _ hrest
        · show (if best ≤ scoreQ q other then _ else _) = _
          rw [if_neg hcmp]
          exact ih _ _ hrest
    · have hpct := pct_identity_ne (fun hh => hother hh.symm)
      rw [nnLoop, hpct]

/-- The orchestrator on the `.ok` path: as many results as queries, and
the `i`-th result is exactly the single-query search of the `i`-th
query against the full database view. -/
theorem compute_nearest_neighbors_ok (db : List Record) :
    ∀ (queries : List Record) (results : List (Record × ℚ)),
      compute_nearest_neighbors queries db = .ok results →
      results.length = queries.length ∧
      ∀ (i : Nat) (h : i < queries.length), ∃ p,
        results[i]? = some p ∧
        compute_nearest_neighbors_single (queries.get ⟨i, h⟩) db = .ok p := by
  intro queries
  induction queries with
  | nil =>
    intro results hres
    rw [compute_nearest_neighbors] at hres
    cases hres
    exact ⟨rfl, fun i h => absurd h (by simp)⟩
  | cons query rest ih =>
    intro results hres
    rw [compute_nearest_neighbors] at hres
    cases hsingle : compute_nearest_neighbors_single query db with
    | error p => rw [hsingle] at hres; cases hres
    | ok r =>
      rw [hsingle] at hres
      cases hrest : compute_nearest_neighbors rest db with
      | error p => rw [hrest] at hres; cases hres
      | ok rs =>
        rw [hrest] at hres
        cases hres
        obtain ⟨hlen, hidx⟩ := ih rs hrest
        refine ⟨by simp [hlen], ?_⟩
        intro i h
        cases i with
        | zero => exact ⟨r, by simp, hsingle⟩
        | succ j =>
          have hj : j < rest.length := by simpa using h
          obtain ⟨p, hp1, hp2⟩ := hidx j hj
          exact ⟨p, by simpa using hp1, by simpa using hp2⟩

/-! ### Count lemmas: symmetry, all-gap comparisons, positional form -/

theorem beq_nat_comm (a b : Nat) : (a == b) = (b == a) := by
  by_cases h : a = b
  · simp [h]
  · have h2 : ¬b = a := fun hh => h hh.symm
    simp [h, h2]

theorem denomCount_comm (x y : Record) : denomCount x y = denomCount y x := by
  rw [denomCount, denomCount, ← List.zip_swap x.seq y.seq,
    List.filter_map, List.length_map]
  refine congrArg List.length (List.filter_congr ?_)
  intro p _
  simp only [Function.comp_apply, Prod.fst_swap, Prod.snd_swap]
  rw [Bool.and_comm]

theorem numerCount_comm (x y : Record) : numerCount x y = numerCount y x := by
  rw [numerCount, numerCount, List.filter_filter, List.filter_filter,
    ← List.zip_swap x.seq y.seq, List.filter_map, List.length_map]
  refine congrArg List.length (List.filter_congr ?_)
  intro p _
  simp only [Function.comp_apply, Prod.fst_swap, Prod.snd_swap]
  simp [beq_nat_comm, Bool.and_comm]

/-- When both sequences carry the gap symbol at every position, no pair
survives the double-gap filter: the denominator of `pct_identity` is 0. -/
theorem denomCount_eq_zero_of_gap {x y : Record}
    (hx : ∀ a ∈ x.seq, a = GAP) (hy : ∀ b ∈ y.seq, b = GAP) :
    denomCount x y = 0 := by
  rw [denomCount, List.length_eq_zero, List.filter_eq_nil_iff]
  intro p hp
  obtain ⟨hp1, hp2⟩ := List.of_mem_zip hp
  simp [hx p.1 hp1, hy p.2 hp2]

/-- Counting over the zipped pairs equals counting over the positions
`i < length` (for equal-length sequences). -/
theorem length_filter_zip_range (p : Nat × Nat → Bool) :
    ∀ (xs ys : List Nat), xs.length = ys.length →
      ((xs.zip ys).filter p).length =
        ((List.range xs.length).filter
          (fun i => p (xs.getD i 0, ys.getD i 0))).length := by
  intro xs
  induction xs with
  | nil =>
    intro ys _
    simp
  | cons a xs ih =>
    intro ys h
    cases ys with
    | nil => simp at h
    | cons b ys =>
      have h' : xs.length = ys.length := by simpa using h
      have hcomp :
          ((fun i => p ((a :: xs).getD i 0, (b :: ys).getD i 0)) ∘ Nat.succ) =
            fun i => p (xs.getD i 0, ys.getD i 0) := rfl
      rw [List.zip_cons_cons, List.filter_cons, List.length_cons,
        List.range_succ_eq_map, List.filter_cons, List.filter_map, hcomp,
        List.getD_cons_zero, List.getD_cons_zero]
      by_cases hp : p (a, b)
      · rw [if_pos hp, if_pos hp]
        simp [ih ys h']
      · rw [if_neg hp, if_neg hp]
        simp [ih ys h']

/-- The claim-side positional denominator: the number of positions
`i < L` at which the two sequences are not both the gap symbol. -/
def denomPos (x y : Record) : Nat :=
  ((List.range x.seq.length).filter
    (fun i => !(x.seq.getD i 0 == GAP && y.seq.getD i 0 == GAP))).length

/-- The claim-side positional numerator: the number of positions
`i < L` that are not double-gap and whose two symbols are equal. -/
def numerPos (x y : Record) : Nat :=
  ((List.range x.seq.length).filter
    (fun i => !(x.seq.getD i 0 == GAP && y.seq.getD i 0 == GAP) &&
      x.seq.getD i 0 == y.seq.getD i 0)).length

theorem denomCount_eq_denomPos {x y : Record}
    (h : x.seq.length = y.seq.length) : denomCount x y = denomPos x y :=
  length_filter_zip_range _ x.seq y.seq h

theorem numerCount_eq_numerPos {x y : Record}
    (h : x.seq.length = y.seq.length) : numerCount x y = numerPos x y := by
  rw [numerCount, List.filter_filter,
    length_filter_zip_range _ x.seq y.seq h, numerPos]
  refine congrArg List.length (List.filter_congr ?_)
  intro i _
  exact Bool.and_comm _ _

/-! ### The validation loop of `parse_all_records` -/

theorem checkLengths_eq_none (first_len : Nat) :
    ∀ (l : List Record) (k : Nat),
      checkLengths first_len k l = none ↔
        ∀ r ∈ l, r.seq.length = first_len := by
  intro l
  induction l with
  | nil => intro k; simp [checkLengths]
  | cons record rest ih =>
    intro k
    by_cases hr : record.seq.length = first_len
    · rw [checkLengths, if_neg (by simp [hr])]
      simp [ih, hr]
    · rw [checkLengths, if_pos hr]
      simp [hr]

theorem checkLengths_first_bad (first_len : Nat) :
    ∀ (l : List Record) (k i : Nat) (h : i < l.length),
      (l.get ⟨i, h⟩).seq.length ≠ first_len →
      (∀ j (hj : j < l.length), j < i →
        (l.get ⟨j, hj⟩).seq.length = first_len) →
      checkLengths first_len k l =
        some ⟨mismatchMsg first_len (l.get ⟨i, h⟩).seq.length (k + i),
              FastaParseErrorKind.LengthMismatch⟩ := by
  intro l
  induction l with
  | nil =>
    intro k i h
    simp at h
  | cons record rest ih =>
    intro k i h hbad hgood
    cases i with
    | zero =>
      rw [checkLengths, if_pos (by simpa using hbad)]
      simp
    | succ j =>
      have hrec : record.seq.length = first_len :=
        hgood 0 (by simp) (Nat.succ_pos j)
      rw [checkLengths, if_neg (by simp [hrec])]
      have hj : j < rest.length := by simpa using h
      have hrun := ih (k + 1) j hj (by simpa using hbad)
        (fun j' hj' hlt => by
          simpa using hgood (j' + 1) (by simpa using hj')
            (Nat.succ_lt_succ hlt))
      rw [hrun]
      have harith : k + 1 + j = k + (j + 1) := by omega
      rw [harith]
      rfl


/-! ### Claim theorems -/

/-- **C1.** For every pair of records of equal sequence length,
`pct_identity` returns numerator/denominator where double-gap positions
are excluded from both counts, every other position is counted in the
denominator, and a position is counted in the numerator exactly when the
two symbols are equal (a gap against a non-gap is unequal, hence a
mismatch counted in the denominator only); the zero-denominator `NaN` is
the `none` value, and whenever the denominator is positive the returned
score lies in `[0, 1]`. -/
theorem C1_pct_identity_counts (x y : Record)
    (hlen : x.seq.length = y.seq.length) :
    pct_identity x y =
      .ok (if denomPos x y = 0 then none
        else some (mkRat (numerPos x y) (denomPos x y))) ∧
    (0 < denomPos x y → ∃ s : ℚ,
      pct_identity x y = .ok (some s) ∧ 0 ≤ s ∧ s ≤ 1) := by
  have hd := denomCount_eq_denomPos hlen
  have hn := numerCount_eq_numerPos hlen
  constructor
  · rw [pct_identity_eq hlen, scoreQ, hd, hn]
  · intro hpos
    have hne : denomCount x y ≠ 0 := by
      rw [hd]
      exact Nat.pos_iff_ne_zero.mp hpos
    refine ⟨scoreQ x y, ?_, scoreQ_nonneg x y, scoreQ_le_one x y⟩
    rw [pct_identity_eq hlen, if_neg hne]

theorem C1_pct_identity_counts_witness :
    (pct_identity gapX gapY =
      .ok (if denomPos gapX gapY = 0 then none
        else some (mkRat (numerPos gapX gapY) (denomPos gapX gapY))) ∧
      (0 < denomPos gapX gapY → ∃ s : ℚ,
        pct_identity gapX gapY = .ok (some s) ∧ 0 ≤ s ∧ s ≤ 1)) ∧
    pct_identity gapX gapY = .ok (some (mkRat 3 4)) :=
  ⟨C1_pct_identity_counts gapX gapY (by decide), by decide⟩

/-- **C6.** `pct_identity` returns the error carrying both sequence
identifiers exactly when the sequence lengths differ, and never returns
a numeric score for unequal-length inputs. -/
theorem C6_pct_identity_length_check (x y : Record) :
    (x.seq.length ≠ y.seq.length ↔
      pct_identity x y =
        .error (NearestNeighborError.HammingDistanceError x.id y.id)) ∧
    (x.seq.length ≠ y.seq.length → ∀ v, pct_identity x y ≠ .ok v) := by
  constructor
  · constructor
    · exact pct_identity_ne
    · intro herr heq
      rw [pct_identity_eq heq] at herr
      cases herr
  · intro h v hv
    rw [pct_identity_ne h] at hv
    cases hv

theorem C6_pct_identity_length_check_witness :
    (recLen4.seq.length ≠ recLen3.seq.length ↔
      pct_identity recLen4 recLen3 =
        .error (NearestNeighborError.HammingDistanceError "input1" "input2")) ∧
    pct_identity recLen4 recLen3 =
      .error (NearestNeighborError.HammingDistanceError "input1" "input2") :=
  ⟨(C6_pct_identity_length_check recLen4 recLen3).1,
   (C6_pct_identity_length_check recLen4 recLen3).1.mp (by decide)⟩

/-- **C9.** The gap-aware percent identity is symmetric on equal-length
records: `pct_identity x y = pct_identity y x`. -/
theorem C9_pct_identity_symm (x y : Record)
    (h : x.seq.length = y.seq.length) :
    pct_identity x y = pct_identity y x := by
  rw [pct_identity_eq h, pct_identity_eq h.symm, scoreQ, scoreQ,
    ← denomCount_comm x y, ← numerCount_comm x y]

theorem C9_pct_identity_symm_witness :
    pct_identity recA7 recC7 = pct_identity recC7 recA7 :=
  C9_pct_identity_symm recA7 recC7 (by decide)

/-- **C2 counterexample.** A non-empty, equal-length candidate list on
which the search does not return any `(candidate, score)` pair: the
single all-gap candidate compares to the all-gap query with a zero
denominator, the `NaN` score never passes `idty >= best_idty`, and the
final `.unwrap()` panics. -/
theorem C2_counterexample :
    [allGapC1] ≠ [] ∧
    allGapC1.seq.length = allGapQ.seq.length ∧
    compute_nearest_neighbors_single allGapQ [allGapC1] =
      .error PanicKind.emptyNeighbor := by decide

/-- **C2 (amended).** For every query and non-empty equal-length
candidate list in which every candidate's comparison with the query has
a positive denominator (no all-double-gap comparison, so every score is
defined), the search returns `(r, score(r))` where `score(r)` is the
maximum score over all candidates — candidates whose identifier equals
the query's are never excluded — and `r` is the last candidate in scan
order attaining that maximum: `cands = l1 ++ r :: l2` with every
candidate in `l2` scoring strictly below `r`. -/
theorem C2_nn_single_last_max (query : Record) (cands : List Record)
    (hne : cands ≠ [])
    (hlen : ∀ c ∈ cands, c.seq.length = query.seq.length)
    (hdef : ∀ c ∈ cands, denomCount query c ≠ 0) :
    ∃ l1 r l2, cands = l1 ++ r :: l2 ∧
      compute_nearest_neighbors_single query cands =
        .ok (r, scoreQ query r) ∧
      (∀ c ∈ cands, scoreQ query c ≤ scoreQ query r) ∧
      (∀ c ∈ l2, scoreQ query c < scoreQ query r) := by
  rcases nnLoop_char query cands 0 none hlen with ⟨_, hlt⟩ |
    ⟨l1, r, l2, hsplit, _, hrun, _, hl2, hall⟩
  · obtain ⟨c0, hc0⟩ := List.exists_mem_of_ne_nil cands hne
    exact absurd (hlt c0 hc0 (hdef c0 hc0))
      (not_lt.mpr (scoreQ_nonneg query c0))
  · refine ⟨l1, r, l2, hsplit, ?_, ?_, ?_⟩
    · rw [compute_nearest_neighbors_single, hrun]
    · intro c hc
      exact hall c hc (hdef c hc)
    · intro c hc
      have hcin : c ∈ cands := by
        rw [hsplit]
        exact List.mem_append_right _ (List.mem_cons_of_mem _ hc)
      exact hl2 c hc (hdef c hcin)

theorem C2_nn_single_last_max_witness :
    (∃ l1 r l2, [tieC1, tieQ] = l1 ++ r :: l2 ∧
      compute_nearest_neighbors_single tieQ [tieC1, tieQ] =
        .ok (r, scoreQ tieQ r) ∧
      (∀ c ∈ [tieC1, tieQ], scoreQ tieQ c ≤ scoreQ tieQ r) ∧
      (∀ c ∈ l2, scoreQ tieQ c < scoreQ tieQ r)) ∧
    compute_nearest_neighbors_single tieQ [tieC1, tieQ] = .ok (tieQ, 1) :=
  ⟨C2_nn_single_last_max tieQ [tieC1, tieQ] (by decide) (by decide)
    (by decide), by decide⟩

/-- **C8 counterexample.** The claim's preconditions (equal lengths,
non-empty candidate collection) do not rule out the empty-neighbor
abort: an all-gap query against all-gap candidates of the same length
panics at the final `.unwrap()`. -/
theorem C8_counterexample :
    [allGapC1, allGapC2] ≠ [] ∧
    allGapC1.seq.length = allGapQ.seq.length ∧
    allGapC2.seq.length = allGapQ.seq.length ∧
    compute_nearest_neighbors_single allGapQ [allGapC1, allGapC2] =
      .error PanicKind.emptyNeighbor := by decide

/-- **C8 (amended).** The per-query search aborts with the comparison
panic when any candidate's length differs from the query's, and aborts
with the unwrap panic when the candidate collection is empty; under the
preconditions that all candidates have the query's length, the
collection is non-empty, and at least one candidate's comparison has a
positive denominator (a defined, non-`NaN` score), neither abort branch
is reachable and the search returns a pair. -/
theorem C8_abort_conditions (query : Record) (cands : List Record) :
    (cands = [] →
      compute_nearest_neighbors_single query cands =
        .error PanicKind.emptyNeighbor) ∧
    ((∃ c ∈ cands, c.seq.length ≠ query.seq.length) →
      compute_nearest_neighbors_single query cands =
        .error PanicKind.cmpFailed) ∧
    (cands ≠ [] →
      (∀ c ∈ cands, c.seq.length = query.seq.length) →
      (∃ c ∈ cands, denomCount query c ≠ 0) →
      ∃ r s, compute_nearest_neighbors_single query cands = .ok (r, s)) := by
  refine ⟨?_, ?_, ?_⟩
  · intro h
    subst h
    rfl
  · intro hex
    rw [compute_nearest_neighbors_single,
      nnLoop_mismatch query cands 0 none hex]
  · intro _ hlen hex
    rcases nnLoop_char query cands 0 none hlen with ⟨_, hlt⟩ |
      ⟨_, r, _, _, _, hrun, _, _, _⟩
    · obtain ⟨c, hc, hdc⟩ := hex
      exact absurd (hlt c hc hdc) (not_lt.mpr (scoreQ_nonneg query c))
    · refine ⟨r, scoreQ query r, ?_⟩
      rw [compute_nearest_neighbors_single, hrun]

theorem C8_abort_conditions_witness :
    ((∃ c ∈ [recLen3], c.seq.length ≠ recLen4.seq.length) →
      compute_nearest_neighbors_single recLen4 [recLen3] =
        .error PanicKind.cmpFailed) ∧
    compute_nearest_neighbors_single recLen4 [recLen3] =
      .error PanicKind.cmpFailed ∧
    (∃ r s, compute_nearest_neighbors_single tieQ [tieC1] = .ok (r, s)) :=
  ⟨(C8_abort_conditions recLen4 [recLen3]).2.1,
   (C8_abort_conditions recLen4 [recLen3]).2.1 (by decide),
   (C8_abort_conditions tieQ [tieC1]).2.2 (by decide) (by decide)
     (by decide)⟩

/-- **C10.** When the query and every candidate carry the gap symbol at
every position (all comparisons are all-double-gap), every
`pct_identity` comparison divides zero by zero — the `NaN` modelled as
`.ok none` — a `NaN` score never passes `idty >= best_idty` and so is
never selected, and for a non-empty candidate list the search selects no
neighbor and panics at the final `.unwrap()` instead of returning a
result. -/
theorem C10_all_double_gap_panics (query : Record) (cands : List Record)
    (_hne : cands ≠ [])
    (hq : ∀ a ∈ query.seq, a = GAP)
    (hlen : ∀ c ∈ cands, c.seq.length = query.seq.length)
    (hcg : ∀ c ∈ cands, ∀ a ∈ c.seq, a = GAP) :
    (∀ c ∈ cands, pct_identity query c = .ok none) ∧
    compute_nearest_neighbors_single query cands =
      .error PanicKind.emptyNeighbor := by
  have hdz : ∀ c ∈ cands, denomCount query c = 0 :=
    fun c hc => denomCount_eq_zero_of_gap hq (hcg c hc)
  constructor
  · intro c hc
    rw [pct_identity_eq (hlen c hc).symm, if_pos (hdz c hc)]
  · rcases nnLoop_char query cands 0 none hlen with ⟨hrun, _⟩ |
      ⟨l1, r, l2, hsplit, hdr, _, _, _, _⟩
    · rw [compute_nearest_neighbors_single, hrun]
    · have hrin : r ∈ cands := by
        rw [hsplit]
        exact List.mem_append_right _ (List.mem_cons_self _ _)
      exact absurd (hdz r hrin) hdr

theorem C10_all_double_gap_panics_witness :
    (∀ c ∈ [allGapC1, allGapC2], pct_identity allGapQ c = .ok none) ∧
    compute_nearest_neighbors_single allGapQ [allGapC1, allGapC2] =
      .error PanicKind.emptyNeighbor :=
  C10_all_double_gap_panics allGapQ [allGapC1, allGapC2] (by decide)
    (by decide) (by decide) (by decide)

/-- **C3.** On the `.ok` path, `compute_store_nearest_neighbors`
produces exactly one result per query record, positionally aligned with
the query view (the `i`-th result is the single-query search of the
`i`-th query against the full database view), and writes exactly one
line per query, in query order, of the form
`query_id<TAB>neighbor_id<TAB>score`.  (The
`assert_eq!(results.len(), query_records.len())` check before emission
is the `.error .resultLenMismatch` branch of the definition; the
`results.length` conjunct below shows its condition always holds.) -/
theorem C3_compute_store_lines (records : List Record)
    (query_ids db_ids : Option (List String)) (lines : List String)
    (hok : compute_store_nearest_neighbors records query_ids db_ids =
      .ok lines) :
    ∃ results,
      compute_nearest_neighbors (filter_records records query_ids)
        (filter_records records db_ids) = .ok results ∧
      results.length = (filter_records records query_ids).length ∧
      lines.length = (filter_records records query_ids).length ∧
      ∀ (i : Nat) (h : i < (filter_records records query_ids).length),
        ∃ r s,
          compute_nearest_neighbors_single
            ((filter_records records query_ids).get ⟨i, h⟩)
            (filter_records records db_ids) = .ok (r, s) ∧
          results[i]? = some (r, s) ∧
          lines[i]? = some
            (((filter_records records query_ids).get ⟨i, h⟩).id ++ "\t" ++
              r.id ++ "\t" ++ toString s) := by
  simp only [compute_store_nearest_neighbors] at hok
  cases hres : compute_nearest_neighbors (filter_records records query_ids)
      (filter_records records db_ids) with
  | error p =>
    rw [hres] at hok
    dsimp only at hok
    cases hok
  | ok results =>
    rw [hres] at hok
    dsimp only at hok
    obtain ⟨hlen, hidx⟩ := compute_nearest_neighbors_ok
      (filter_records records db_ids) (filter_records records query_ids)
      results hres
    rw [if_neg (by simp [hlen])] at hok
    cases hok
    refine ⟨results, rfl, hlen, ?_, ?_⟩
    · simp [hlen]
    · intro i h
      obtain ⟨p, hp1, hp2⟩ := hidx i h
      obtain ⟨r, s⟩ := p
      refine ⟨r, s, hp2, hp1, ?_⟩
      have hq : (filter_records records query_ids)[i]? =
          some ((filter_records records query_ids).get ⟨i, h⟩) := by
        rw [List.getElem?_eq_getElem h]
        rfl
      have hz : ((filter_records records query_ids).zip results)[i]? =
          some ((filter_records records query_ids).get ⟨i, h⟩, (r, s)) :=
        List.getElem?_zip_eq_some.mpr ⟨hq, hp1⟩
      rw [List.getElem?_map, hz]
      rfl

theorem C3_compute_store_lines_witness :
    ∃ results,
      compute_nearest_neighbors
        (filter_records [demoA, demoB] (some ["a"]))
        (filter_records [demoA, demoB] (some ["b"])) = .ok results ∧
      results.length =
        (filter_records [demoA, demoB] (some ["a"])).length ∧
      ["a\tb\t0"].length =
        (filter_records [demoA, demoB] (some ["a"])).length ∧
      ∀ (i : Nat)
        (h : i < (filter_records [demoA, demoB] (some ["a"])).length),
        ∃ r s,
          compute_nearest_neighbors_single
            ((filter_records [demoA, demoB] (some ["a"])).get ⟨i, h⟩)
            (filter_records [demoA, demoB] (some ["b"])) = .ok (r, s) ∧
          results[i]? = some (r, s) ∧
          ["a\tb\t0"][i]? = some
            (((filter_records [demoA, demoB] (some ["a"])).get ⟨i, h⟩).id ++
              "\t" ++ r.id ++ "\t" ++ toString s) :=
  C3_compute_store_lines [demoA, demoB] (some ["a"]) (some ["b"])
    ["a\tb\t0"] (by decide)

/-- **C5.** `parse_all_records` fails with the `EmptyFile` error when
zero records are parsed; fails with the `LengthMismatch` error naming
the offending record's index and the expected versus actual length when
the first offending record's length differs from the first record's
length; and otherwise — on every non-empty collection whose records all
have the first record's length — it succeeds and returns all records,
every one of which has the first record's sequence length (stated in
both directions: success implies uniformity, and uniformity implies
success). -/
theorem C5_parse_all_records_spec (recs : List Record) :
    (recs = [] →
      parse_all_records recs =
        .error ⟨"No records found.", FastaParseErrorKind.EmptyFile⟩) ∧
    (∀ (i : Nat) (h : i < recs.length),
      (recs.get ⟨i, h⟩).seq.length ≠ firstLen recs →
      (∀ j (hj : j < recs.length), j < i →
        (recs.get ⟨j, hj⟩).seq.length = firstLen recs) →
      parse_all_records recs =
        .error ⟨mismatchMsg (firstLen recs) (recs.get ⟨i, h⟩).seq.length i,
                FastaParseErrorKind.LengthMismatch⟩) ∧
    (∀ out, parse_all_records recs = .ok out →
      out = recs ∧ ∀ r ∈ recs, r.seq.length = firstLen recs) ∧
    (recs ≠ [] →
      (∀ r ∈ recs, r.seq.length = firstLen recs) →
      parse_all_records recs = .ok recs) := by
  cases recs with
  | nil =>
    refine ⟨fun _ => rfl, ?_, ?_, ?_⟩
    · intro i h
      simp at h
    · intro out hout
      cases hout
    · intro hne
      exact absurd rfl hne
  | cons first rest =>
    refine ⟨fun h => absurd h (List.cons_ne_nil first rest), ?_, ?_, ?_⟩
    · intro i h hbad hgood
      have hcheck := checkLengths_first_bad first.seq.length
        (first :: rest) 0 i h hbad hgood
      rw [parse_all_records, hcheck]
      rw [Nat.zero_add]
      rfl
    · intro out hout
      rw [parse_all_records] at hout
      cases hcheck : checkLengths first.seq.length 0 (first :: rest) with
      | some e =>
        rw [hcheck] at hout
        cases hout
      | none =>
        rw [hcheck] at hout
        cases hout
        exact ⟨rfl, (checkLengths_eq_none first.seq.length
          (first :: rest) 0).mp hcheck⟩
    · intro _ huni
      have hcheck : checkLengths first.seq.length 0 (first :: rest) = none :=
        (checkLengths_eq_none first.seq.length (first :: rest) 0).mpr huni
      rw [parse_all_records, hcheck]

theorem C5_parse_all_records_spec_witness :
    parse_all_records [recLen4, recLen3] =
      .error ⟨mismatchMsg (firstLen [recLen4, recLen3])
          (([recLen4, recLen3].get ⟨1, by decide⟩)).seq.length 1,
        FastaParseErrorKind.LengthMismatch⟩ ∧
    parse_all_records [] =
      .error ⟨"No records found.", FastaParseErrorKind.EmptyFile⟩ ∧
    parse_all_records [recLen4, recLen4] = .ok [recLen4, recLen4] :=
  ⟨(C5_parse_all_records_spec [recLen4, recLen3]).2.1 1 (by decide)
      (by decide)
      (fun j hj hlt => by
        have hj0 : j = 0 := by omega
        subst hj0
        show recLen4.seq.length = firstLen [recLen4, recLen3]
        decide),
   (C5_parse_all_records_spec []).1 rfl,
   (C5_parse_all_records_spec [recLen4, recLen4]).2.2.2 (by decide)
     (by decide)⟩

/-- **C7.** `filter_records` with no identifier set returns every record
in original order; with an identifier set it returns exactly the records
whose id is a member of the set, preserving original collection order
(a sublist of the collection); identifiers matching no record are
silently ignored (the function is total, membership is simply never
witnessed), and duplicate identifiers have no effect: any two identifier
lists with the same members filter identically (set semantics). -/
theorem C7_filter_records_spec (records : List Record)
    (ids ids2 : List String) :
    filter_records records none = records ∧
    (filter_records records (some ids)).Sublist records ∧
    (∀ r, r ∈ filter_records records (some ids) ↔
      r ∈ records ∧ r.id ∈ ids) ∧
    ((∀ s, s ∈ ids ↔ s ∈ ids2) →
      filter_records records (some ids) =
        filter_records records (some ids2)) := by
  refine ⟨rfl, List.filter_sublist _, ?_, ?_⟩
  · intro r
    simp [filter_records, List.mem_filter]
  · intro h
    simp only [filter_records]
    refine List.filter_congr ?_
    intro record _
    simp only [List.elem_eq_mem]
    exact decide_eq_decide.mpr (h record.id)

theorem C7_filter_records_spec_witness :
    filter_records [demoA, demoB] none = [demoA, demoB] ∧
    filter_records [demoA, demoB] (some ["b", "zzz", "b"]) =
      filter_records [demoA, demoB] (some ["zzz", "b"]) ∧
    filter_records [demoA, demoB] (some ["b", "zzz", "b"]) = [demoB] :=
  ⟨(C7_filter_records_spec [demoA, demoB] ["b", "zzz", "b"]
      ["zzz", "b"]).1,
   (C7_filter_records_spec [demoA, demoB] ["b", "zzz", "b"]
      ["zzz", "b"]).2.2.2 (by
        intro s
        simp only [List.mem_cons, List.not_mem_nil, or_false]
        tauto),
   by decide⟩

/-- **C4.** At the scenario-2 regression input the shipped metric is the
gap-aware percent identity, not the Hamming distance: query 1
(13 positions, all matching `db_1`) gets the score 1 — and a percent
identity can never equal the distance 13 that the repository's own test
`test_query_db_match` (and the claim) assert for this input. -/
theorem C4_scenario2_code_vs_test :
    compute_nearest_neighbors_single query13 [db13] = .ok (db13, 1) ∧
    pct_identity query13 db13 = .ok (some 1) ∧
    (1 : ℚ) ≠ 13 := by decide
